import Mathlib

/-!
Shallow embedding of the todo-app client (src/app/src/App.tsx) together with
the store-side behavior fixed by the SQL schema shipped in the same file
(the public.todos table and the set_updated_at trigger).  Component state is
an explicit record, every store interaction is recorded as a StoreCall value,
and each event handler becomes a function from state (plus the responses the
remote collaborators would deliver) to a new state and the list of store
calls it issued, in order.
-/

namespace TodoApp

/-- One task row, as held in the store and mirrored locally (the Todo type of App.tsx,
matching the columns of public.todos). -/
structure Todo where
  id : String
  user_id : String
  title : String
  description : Option String
  completed : Bool
  due_date : Option String
  created_at : String
  updated_at : String
deriving DecidableEq, Repr

/-- The completion filter selection (the Filter type of App.tsx). -/
inductive Filter where
  | all
  | active
  | completed
deriving DecidableEq, Repr

/-- The authentication form mode. -/
inductive AuthMode where
  | login
  | signup
deriving DecidableEq, Repr

/-- The authenticated user carried by a session (session.user). -/
structure SessionUser where
  id : String
deriving DecidableEq, Repr

/-- An authentication session, issued by the external auth collaborator. -/
structure Session where
  user : SessionUser
deriving DecidableEq, Repr

/-- The component state of App: one field per useState cell. -/
structure AppState where
  session : Option Session
  loading : Bool
  todos : List Todo
  error : Option String
  authMode : AuthMode
  email : String
  password : String
  authLoading : Bool
  title : String
  description : String
  dueDate : String
  editingId : Option String
  filter : Filter
deriving DecidableEq, Repr

/-- The row fields sent with an insert or update (the payload object of handleSubmitTodo). -/
structure TodoPayload where
  title : String
  description : Option String
  due_date : Option String
  user_id : String
deriving DecidableEq, Repr

/-- A request issued to the store collaborator: the supabase.from calls of App.tsx.
select carries the order-by-created-at-descending clause of fetchTodos; update is
the payload update of handleSubmitTodo; updateCompleted is the single-column update
of toggleComplete; delete is the deletion of deleteTodo. -/
inductive StoreCall where
  | select
  | insert (payload : TodoPayload)
  | update (payload : TodoPayload) (id : String)
  | updateCompleted (completed : Bool) (id : String)
  | delete (id : String)
deriving DecidableEq, Repr

/-- Models the ECMAScript expression new Date(d).toISOString() for the date-only
strings d that App.tsx feeds it (the value of a date input, or a slice(0, 10) of a
stored timestamp): per ECMA-262 a date-only form parses as UTC midnight of that
calendar day, and toISOString prints it with a zero time component. -/
def jsDateToISOString (d : String) : String :=
  d ++ "T00:00:00.000Z"

/-- The fetchTodos handler.  It clears the error, issues the ordered select, and
either records the failure message (leaving todos alone) or replaces todos with the
returned data.  result stands for the store response to the select. -/
def fetchTodos (result : Except String (List Todo)) (s : AppState) :
    AppState × List StoreCall :=
  let s1 := { s with error := none }
  match result with
  | .error e => ({ s1 with error := some e }, [StoreCall.select])
  | .ok data => ({ s1 with todos := data }, [StoreCall.select])

/-- The resetForm helper of App.tsx. -/
def resetForm (s : AppState) : AppState :=
  { s with title := "", description := "", dueDate := "", editingId := none }

/-- Models the ECMAScript method String.prototype.trim used by
handleSubmitTodo: removes the whitespace characters from both ends of the
string. -/
def jsTrim (s : String) : String :=
  ⟨((s.data.dropWhile Char.isWhitespace).reverse.dropWhile Char.isWhitespace).reverse⟩

/-- The payload object built by handleSubmitTodo: trimmed title, trimmed
description normalized to null when empty, due date normalized to a full
timestamp when present, and the current user id. -/
def mkPayload (s : AppState) (sess : Session) : TodoPayload :=
  { title := jsTrim s.title
    description := if jsTrim s.description = "" then none else some (jsTrim s.description)
    due_date := if s.dueDate = "" then none else some (jsDateToISOString s.dueDate)
    user_id := sess.user.id }

/-- The handleSubmitTodo handler.  Guards on a present session, validates the
trimmed title locally, then issues an update (when editingId is set) or an insert;
on store failure it records the message and stops, on success it resets the form
and runs the trailing fetchTodos.  mutResult is the store response to the
insert or update (some message on failure), fetchResult the response to the
trailing select. -/
def handleSubmitTodo (mutResult : Option String)
    (fetchResult : Except String (List Todo)) (s : AppState) :
    AppState × List StoreCall :=
  match s.session with
  | none => (s, [])
  | some sess =>
    let s1 := { s with error := none }
    let payload := mkPayload s sess
    if payload.title = "" then
      ({ s1 with error := some "Title is required" }, [])
    else
      match s.editingId with
      | some eid =>
        match mutResult with
        | some e => ({ s1 with error := some e }, [StoreCall.update payload eid])
        | none =>
          let r := fetchTodos fetchResult (resetForm s1)
          (r.1, StoreCall.update payload eid :: r.2)
      | none =>
        match mutResult with
        | some e => ({ s1 with error := some e }, [StoreCall.insert payload])
        | none =>
          let r := fetchTodos fetchResult (resetForm s1)
          (r.1, StoreCall.insert payload :: r.2)

/-- The startEdit handler: records the edited id and pre-fills the draft fields,
the due-date draft receiving only the first ten characters of the stored value. -/
def startEdit (todo : Todo) (s : AppState) : AppState :=
  { s with
    editingId := some todo.id
    title := todo.title
    description := todo.description.getD ""
    dueDate := match todo.due_date with
      | some d => d.take 10
      | none => "" }

/-- The toggleComplete handler: issues the completed-flag update for the row,
records the failure message and stops on error, otherwise runs the trailing
fetchTodos. -/
def toggleComplete (mutResult : Option String)
    (fetchResult : Except String (List Todo)) (todo : Todo) (s : AppState) :
    AppState × List StoreCall :=
  match mutResult with
  | some e =>
    ({ s with error := some e }, [StoreCall.updateCompleted (!todo.completed) todo.id])
  | none =>
    let r := fetchTodos fetchResult s
    (r.1, StoreCall.updateCompleted (!todo.completed) todo.id :: r.2)

/-- The deleteTodo handler: issues the deletion, records the failure message and
stops on error, otherwise runs the trailing fetchTodos. -/
def deleteTodo (mutResult : Option String)
    (fetchResult : Except String (List Todo)) (id : String) (s : AppState) :
    AppState × List StoreCall :=
  match mutResult with
  | some e => ({ s with error := some e }, [StoreCall.delete id])
  | none =>
    let r := fetchTodos fetchResult s
    (r.1, StoreCall.delete id :: r.2)

/-- The filteredTodos derivation of App.tsx: a pure view of the todo list under
the filter selection, issuing no store call. -/
def filteredTodos (filter : Filter) (todos : List Todo) : List Todo :=
  match filter with
  | .active => todos.filter (fun t => !t.completed)
  | .completed => todos.filter (fun t => t.completed)
  | .all => todos

/-- The session effect of App.tsx (the useEffect keyed on session): after the
session cell changes, a present session triggers fetchTodos and an absent one
clears the todo list locally. -/
def sessionEffect (newSession : Option Session)
    (fetchResult : Except String (List Todo)) (s : AppState) :
    AppState × List StoreCall :=
  let s1 := { s with session := newSession }
  match newSession with
  | some _ => fetchTodos fetchResult s1
  | none => ({ s1 with todos := [] }, [])

/-- The ordering requested by fetchTodos: created_at descending. -/
def createdDesc (a b : Todo) : Prop :=
  b.created_at ≤ a.created_at

instance : DecidableRel createdDesc := fun a b =>
  inferInstanceAs (Decidable (b.created_at ≤ a.created_at))

instance : IsTotal Todo createdDesc :=
  ⟨fun a b => (le_total b.created_at a.created_at)⟩

instance : IsTrans Todo createdDesc :=
  ⟨fun _ _ _ h1 h2 => le_trans h2 h1⟩

/-- The store answering the select of fetchTodos: all rows, ordered by
created_at descending as the query requests. -/
def storeSelect (rows : List Todo) : List Todo :=
  rows.insertionSort createdDesc

/-- The store answering the completed-flag update of toggleComplete: the row
matching the id gets the new flag, and the set_updated_at trigger stamps its
updated_at with the current time; every other row is untouched. -/
def storeUpdateCompleted (rows : List Todo) (id : String) (completed : Bool)
    (now : String) : List Todo :=
  rows.map (fun r =>
    if r.id = id then { r with completed := completed, updated_at := now } else r)

/-- The end-to-end toggle scenario: the store holds rows, toggleComplete succeeds
against it (the trigger stamping now into updated_at), and the trailing
fetchTodos receives the ordered select of the updated rows. -/
def toggleThenFetch (rows : List Todo) (todo : Todo) (now : String)
    (s : AppState) : AppState × List StoreCall :=
  let rows2 := storeUpdateCompleted rows todo.id (!todo.completed) now
  toggleComplete none (Except.ok (storeSelect rows2)) todo s

/-- A concrete task row used to instantiate theorems. -/
def t0 : Todo :=
  { id := "a1", user_id := "u1", title := "T", description := some "d",
    completed := false, due_date := some "2024-05-01T15:30:00+00:00",
    created_at := "2024-01-01T00:00:00+00:00",
    updated_at := "2024-01-01T00:00:00+00:00" }

/-- A concrete mutation timestamp used to instantiate theorems. -/
def now0 : String := "2024-06-01T00:00:00+00:00"

/-- A concrete component state with a present session. -/
def s0 : AppState :=
  { session := some { user := { id := "u1" } }, loading := false, todos := [t0],
    error := some "old", authMode := .login, email := "", password := "",
    authLoading := false, title := "hello", description := "", dueDate := "",
    editingId := none, filter := .all }

/-- The same concrete state with the session absent. -/
def sNoSess : AppState := { s0 with session := none }

/-- C3: filteredTodos with the active selection keeps exactly the tasks with
completed = false, with the completed selection exactly those with
completed = true, and with the all selection the full collection; every
selection yields a sublist of the collection, so the existing order is
preserved; filteredTodos is a pure function and issues no store call. -/
theorem filteredTodos_spec (todos : List Todo) :
    (∀ t : Todo, t ∈ filteredTodos .active todos ↔ t ∈ todos ∧ t.completed = false) ∧
    (∀ t : Todo, t ∈ filteredTodos .completed todos ↔ t ∈ todos ∧ t.completed = true) ∧
    filteredTodos .all todos = todos ∧
    (∀ f : Filter, (filteredTodos f todos).Sublist todos) := by
  refine ⟨?_, ?_, rfl, ?_⟩
  · intro t
    simp [filteredTodos]
  · intro t
    simp [filteredTodos]
  · intro f
    cases f
    · exact List.Sublist.refl todos
    · exact List.filter_sublist todos
    · exact List.filter_sublist todos

/-- C4: when the select of fetchTodos fails, the handler records the reported
message as the current error and the state is otherwise exactly the previous
one; in particular the previously held todo collection is untouched. -/
theorem fetchTodos_failure_preserves_todos (e : String) (s : AppState) :
    fetchTodos (.error e) s = ({ s with error := some e }, [StoreCall.select]) := by
  rfl

/-- C7: a successful fetch from the store, which answers the select of
fetchTodos with the rows ordered by created_at descending, always leaves the
todo collection sorted by created_at descending; every fetch, including each
trailing re-fetch after a mutation, goes through this same handler. -/
theorem fetch_sorted_desc (rows : List Todo) (s : AppState) :
    ((fetchTodos (.ok (storeSelect rows)) s).1.todos).Sorted createdDesc := by
  show (storeSelect rows).Sorted createdDesc
  exact List.sorted_insertionSort createdDesc rows

/-- C8: the session effect on a transition to an absent session empties the
local todo collection and issues no store call; on a transition to a present
session it runs fetchTodos, whose single store call is the select. -/
theorem sessionEffect_spec :
    (∀ (s : AppState) (fetchResult : Except String (List Todo)),
      sessionEffect none fetchResult s = ({ s with session := none, todos := [] }, [])) ∧
    (∀ (s : AppState) (sess : Session) (fetchResult : Except String (List Todo)),
      sessionEffect (some sess) fetchResult s =
        fetchTodos fetchResult { s with session := some sess } ∧
      (sessionEffect (some sess) fetchResult s).2 = [StoreCall.select]) := by
  refine ⟨fun s fetchResult => rfl, fun s sess fetchResult => ⟨rfl, ?_⟩⟩
  cases fetchResult <;> rfl

/-- C1 counterexample: with the session absent, toggleComplete still performs a
store call (its completed-flag update), so not every operation refuses to act
when the session is absent. -/
theorem toggle_calls_store_without_session :
    sNoSess.session = none ∧
    (toggleComplete none (Except.ok []) t0 sNoSess).2 ≠ [] := by
  exact ⟨rfl, by simp [toggleComplete, fetchTodos]⟩

/-- C1 amended: only handleSubmitTodo (create and update) guards on the
session, refusing to act, with no store call and no state change, when it is
absent; toggleComplete and deleteTodo never consult the session and always
issue their store call, and fetchTodos always issues its select. -/
theorem session_guard_only_on_submit :
    (∀ (mutResult : Option String) (fetchResult : Except String (List Todo))
        (s : AppState), s.session = none →
      handleSubmitTodo mutResult fetchResult s = (s, [])) ∧
    (∀ (mutResult : Option String) (fetchResult : Except String (List Todo))
        (todo : Todo) (s : AppState),
      (toggleComplete mutResult fetchResult todo s).2 ≠ []) ∧
    (∀ (mutResult : Option String) (fetchResult : Except String (List Todo))
        (id : String) (s : AppState),
      (deleteTodo mutResult fetchResult id s).2 ≠ []) ∧
    (∀ (result : Except String (List Todo)) (s : AppState),
      (fetchTodos result s).2 = [StoreCall.select]) := by
  refine ⟨?_, ?_, ?_, ?_⟩
  · intro mutResult fetchResult s h
    simp [handleSubmitTodo, h]
  · intro mutResult fetchResult todo s
    cases mutResult <;> simp [toggleComplete, fetchTodos]
  · intro mutResult fetchResult id s
    cases mutResult <;> simp [deleteTodo, fetchTodos]
  · intro result s
    cases result <;> rfl

/-- C1 witness: the amended statement instantiated at concrete states. -/
theorem session_guard_only_on_submit_witness :
    handleSubmitTodo none (Except.ok []) sNoSess = (sNoSess, []) ∧
    (toggleComplete none (Except.ok []) t0 s0).2 ≠ [] ∧
    (deleteTodo none (Except.ok []) "a1" s0).2 ≠ [] ∧
    (fetchTodos (Except.ok []) s0).2 = [StoreCall.select] :=
  ⟨session_guard_only_on_submit.1 none (Except.ok []) sNoSess rfl,
   session_guard_only_on_submit.2.1 none (Except.ok []) t0 s0,
   session_guard_only_on_submit.2.2.1 none (Except.ok []) "a1" s0,
   session_guard_only_on_submit.2.2.2 (Except.ok []) s0⟩

/-- C2: when the store reports a failure for any of the four mutations, the
acting operation records exactly that message as the current error, overwriting
whatever error was there, changes nothing else in the state, issues only the
one mutation call, never a retry, and does not proceed to its trailing select. -/
theorem store_failure_aborts :
    (∀ (e : String) (fetchResult : Except String (List Todo)) (sess : Session)
        (s : AppState), s.session = some sess → s.editingId = none →
        jsTrim s.title ≠ "" →
      handleSubmitTodo (some e) fetchResult s =
        ({ s with error := some e }, [StoreCall.insert (mkPayload s sess)])) ∧
    (∀ (e : String) (fetchResult : Except String (List Todo)) (sess : Session)
        (eid : String) (s : AppState), s.session = some sess →
        s.editingId = some eid → jsTrim s.title ≠ "" →
      handleSubmitTodo (some e) fetchResult s =
        ({ s with error := some e }, [StoreCall.update (mkPayload s sess) eid])) ∧
    (∀ (e : String) (fetchResult : Except String (List Todo)) (todo : Todo)
        (s : AppState),
      toggleComplete (some e) fetchResult todo s =
        ({ s with error := some e },
         [StoreCall.updateCompleted (!todo.completed) todo.id])) ∧
    (∀ (e : String) (fetchResult : Except String (List Todo)) (id : String)
        (s : AppState),
      deleteTodo (some e) fetchResult id s =
        ({ s with error := some e }, [StoreCall.delete id])) := by
  refine ⟨?_, ?_, fun e fetchResult todo s => rfl, fun e fetchResult id s => rfl⟩
  · intro e fetchResult sess s hsess hedit htitle
    simp [handleSubmitTodo, hsess, hedit, mkPayload, htitle]
  · intro e fetchResult sess eid s hsess hedit htitle
    simp [handleSubmitTodo, hsess, hedit, mkPayload, htitle]

/-- C2 witness: the failure semantics instantiated at concrete states, for the
insert, update, toggle and delete paths. -/
theorem store_failure_aborts_witness :
    handleSubmitTodo (some "boom") (Except.ok []) s0 =
      ({ s0 with error := some "boom" }, [StoreCall.insert (mkPayload s0 ⟨⟨"u1"⟩⟩)]) ∧
    handleSubmitTodo (some "boom") (Except.ok []) { s0 with editingId := some "a1" } =
      ({ s0 with editingId := some "a1", error := some "boom" },
       [StoreCall.update (mkPayload { s0 with editingId := some "a1" } ⟨⟨"u1"⟩⟩) "a1"]) ∧
    toggleComplete (some "boom") (Except.ok []) t0 s0 =
      ({ s0 with error := some "boom" },
       [StoreCall.updateCompleted (!t0.completed) t0.id]) ∧
    deleteTodo (some "boom") (Except.ok []) "a1" s0 =
      ({ s0 with error := some "boom" }, [StoreCall.delete "a1"]) :=
  ⟨store_failure_aborts.1 "boom" (Except.ok []) ⟨⟨"u1"⟩⟩ s0 rfl rfl (by decide),
   store_failure_aborts.2.1 "boom" (Except.ok []) ⟨⟨"u1"⟩⟩ "a1"
     { s0 with editingId := some "a1" } rfl rfl (by decide),
   store_failure_aborts.2.2.1 "boom" (Except.ok []) t0 s0,
   store_failure_aborts.2.2.2 "boom" (Except.ok []) "a1" s0⟩

/-- C5 counterexample: toggling the concrete task t0 and re-fetching yields the
row with updated_at stamped by the set_updated_at trigger, so no task of the
fetched collection has t0's id, the flipped flag and an unchanged updated_at
field: not all fields other than completed survive the toggle. -/
theorem toggle_then_fetch_changes_updated_at :
    (toggleThenFetch [t0] t0 now0 s0).1.todos =
      [{ t0 with completed := true, updated_at := now0 }] ∧
    ¬ ∃ u ∈ (toggleThenFetch [t0] t0 now0 s0).1.todos,
        u.id = t0.id ∧ u.completed = !t0.completed ∧
        u.updated_at = t0.updated_at := by
  constructor
  · rfl
  · decide

/-- C5 amended: for every task present in the store, toggling it and re-fetching
yields a task with the same id, the flipped completed flag, and all fields other
than updated_at unchanged; updated_at carries the mutation timestamp stamped by
the store trigger. -/
theorem toggleThenFetch_spec (rows : List Todo) (todo : Todo) (now : String)
    (s : AppState) (h : todo ∈ rows) :
    ∃ u ∈ (toggleThenFetch rows todo now s).1.todos,
      u.id = todo.id ∧ u.completed = !todo.completed ∧ u.title = todo.title ∧
      u.description = todo.description ∧ u.due_date = todo.due_date ∧
      u.created_at = todo.created_at ∧ u.user_id = todo.user_id ∧
      u.updated_at = now := by
  refine ⟨{ todo with completed := !todo.completed, updated_at := now },
    ?_, rfl, rfl, rfl, rfl, rfl, rfl, rfl, rfl⟩
  show _ ∈ storeSelect (storeUpdateCompleted rows todo.id (!todo.completed) now)
  rw [storeSelect, List.mem_insertionSort, storeUpdateCompleted]
  exact List.mem_map.mpr ⟨todo, h, by simp⟩

/-- C5 witness: the amended statement instantiated at the concrete task t0. -/
theorem toggleThenFetch_spec_witness :
    ∃ u ∈ (toggleThenFetch [t0] t0 now0 s0).1.todos,
      u.id = t0.id ∧ u.completed = !t0.completed ∧ u.title = t0.title ∧
      u.description = t0.description ∧ u.due_date = t0.due_date ∧
      u.created_at = t0.created_at ∧ u.user_id = t0.user_id ∧
      u.updated_at = now0 :=
  toggleThenFetch_spec [t0] t0 now0 s0 (by simp)

/-- C6: with a present session, a submission whose title trims to empty fails
the local validation: the error becomes the local message Title is required, no
insert or update is issued, no store call at all happens, and no other state
field changes; this covers both the creating and the editing mode. -/
theorem empty_title_validation (mutResult : Option String)
    (fetchResult : Except String (List Todo)) (sess : Session) (s : AppState)
    (hsess : s.session = some sess) (htitle : jsTrim s.title = "") :
    handleSubmitTodo mutResult fetchResult s =
      ({ s with error := some "Title is required" }, []) := by
  simp [handleSubmitTodo, hsess, mkPayload, htitle]

/-- C6 witness: the validation instantiated at a whitespace-only title. -/
theorem empty_title_validation_witness :
    handleSubmitTodo none (Except.ok []) { s0 with title := "  " } =
      ({ s0 with title := "  ", error := some "Title is required" }, []) :=
  empty_title_validation none (Except.ok []) ⟨⟨"u1"⟩⟩
    { s0 with title := "  " } rfl (by decide)

/-- A submission in editing mode with a valid title issues the payload update
for the edited id as its first store call, whatever the store answers. -/
theorem submit_edit_calls (mutResult : Option String)
    (fetchResult : Except String (List Todo)) (sess : Session) (eid : String)
    (s : AppState) (hsess : s.session = some sess)
    (hedit : s.editingId = some eid) (htitle : jsTrim s.title ≠ "") :
    ∃ rest, (handleSubmitTodo mutResult fetchResult s).2 =
      StoreCall.update (mkPayload s sess) eid :: rest := by
  cases mutResult with
  | some e =>
    exact ⟨[], by simp [handleSubmitTodo, hsess, hedit, mkPayload, htitle]⟩
  | none =>
    exact ⟨[StoreCall.select],
      by simp [handleSubmitTodo, hsess, hedit, mkPayload, htitle]
         cases fetchResult <;> rfl⟩

/-- C9: in editing mode the submitted update call carries the full payload,
whose user_id field is the current session's user identifier; the edit thus
rewrites the owner column besides title, description and due_date. -/
theorem update_payload_rewrites_owner (mutResult : Option String)
    (fetchResult : Except String (List Todo)) (sess : Session) (eid : String)
    (s : AppState) (hsess : s.session = some sess)
    (hedit : s.editingId = some eid) (htitle : jsTrim s.title ≠ "") :
    (∃ rest, (handleSubmitTodo mutResult fetchResult s).2 =
      StoreCall.update (mkPayload s sess) eid :: rest) ∧
    (mkPayload s sess).user_id = sess.user.id :=
  ⟨submit_edit_calls mutResult fetchResult sess eid s hsess hedit htitle, rfl⟩

/-- C9 witness: the owner-rewriting payload instantiated at a concrete editing
state. -/
theorem update_payload_rewrites_owner_witness :
    (∃ rest, (handleSubmitTodo none (Except.ok [])
        { s0 with editingId := some "a1" }).2 =
      StoreCall.update (mkPayload { s0 with editingId := some "a1" } ⟨⟨"u1"⟩⟩)
        "a1" :: rest) ∧
    (mkPayload { s0 with editingId := some "a1" } ⟨⟨"u1"⟩⟩).user_id =
      (⟨⟨"u1"⟩⟩ : Session).user.id :=
  update_payload_rewrites_owner none (Except.ok []) ⟨⟨"u1"⟩⟩ "a1"
    { s0 with editingId := some "a1" } rfl rfl (by decide)

/-- C10: invoking startEdit on a task with a stored due_date pre-fills the
draft with only its first ten characters, and submitting without touching the
draft sends an update for that task whose due_date is that calendar date
completed to midnight UTC; the stored time-of-day component does not survive
the round trip. -/
theorem startEdit_submit_due_date_midnight (mutResult : Option String)
    (fetchResult : Except String (List Todo)) (sess : Session) (todo : Todo)
    (d : String) (s : AppState) (hsess : s.session = some sess)
    (hdue : todo.due_date = some d) (hd : d.take 10 ≠ "")
    (htitle : jsTrim todo.title ≠ "") :
    (startEdit todo s).dueDate = d.take 10 ∧
    (mkPayload (startEdit todo s) sess).due_date =
      some (d.take 10 ++ "T00:00:00.000Z") ∧
    ∃ rest, (handleSubmitTodo mutResult fetchResult (startEdit todo s)).2 =
      StoreCall.update (mkPayload (startEdit todo s) sess) todo.id :: rest := by
  refine ⟨by simp [startEdit, hdue], ?_, ?_⟩
  · simp [mkPayload, startEdit, hdue, hd, jsDateToISOString]
  · exact submit_edit_calls mutResult fetchResult sess todo.id
      (startEdit todo s) hsess rfl htitle

/-- C10 witness: the midnight normalization instantiated at the concrete task
t0, whose stored due_date carries a nonzero time of day. -/
theorem startEdit_submit_due_date_midnight_witness :
    (startEdit t0 s0).dueDate = "2024-05-01T15:30:00+00:00".take 10 ∧
    (mkPayload (startEdit t0 s0) ⟨⟨"u1"⟩⟩).due_date =
      some ("2024-05-01T15:30:00+00:00".take 10 ++ "T00:00:00.000Z") ∧
    ∃ rest, (handleSubmitTodo none (Except.ok []) (startEdit t0 s0)).2 =
      StoreCall.update (mkPayload (startEdit t0 s0) ⟨⟨"u1"⟩⟩) t0.id :: rest :=
  startEdit_submit_due_date_midnight none (Except.ok []) ⟨⟨"u1"⟩⟩ t0
    "2024-05-01T15:30:00+00:00" s0 rfl rfl (by decide) (by decide)

end TodoApp
